import Mathlib

/-!
Verification of the LogDot telemetry SDK core: the JS-object model used for
contexts and tags, the byte-safe UTF-8 truncator, the retrying HTTP
transport, the log accumulator, the bound metrics client, the console
capture buffer, and the OTel metric exporter.  Each definition is a shallow
embedding of the corresponding TypeScript function; stateful classes become
explicit state records with functions returning the new state, network
calls become explicit `Except`-valued response parameters, and the payload
actually handed to the transport is returned as an `Option` so that
"no network call was made" is observable.
-/

namespace LogDot

/-! ## JS object model

JavaScript objects with string keys are modelled as association lists in
insertion order.  The spread `\x7b...a, ...b\x7d` keeps the keys of `a` in
order with values overridden by `b` on collision, followed by the entries
of `b` whose key is absent from `a`. -/

abbrev Obj (V : Type) := List (String × V)

/-- JS object spread merge of two objects (`b` wins on key collision). -/
def spread {V : Type} (a b : Obj V) : Obj V :=
  a.map (fun p =>
    match b.lookup p.1 with
    | some v => (p.1, v)
    | none => p) ++
  b.filter (fun p => (a.lookup p.1).isNone)

/-! ## Retrying HTTP transport (src/http.ts)

An attempt is the body of `post`/`get`: it either completes with an HTTP
status and an optional decoded body (returned as `Except.ok`, whatever the
status is), or throws (timeout, abort, connection failure — `Except.error`).
`executeWithRetry` is the retry loop; the retry delay only affects timing,
never values, so it is not part of the state.  The pair's second component
counts how many attempts were actually performed. -/

structure RetryConfig where
  maxAttempts : Nat
  baseDelayMs : ℚ
  maxDelayMs : ℚ

/-- `calculateBackoff` from src/http.ts: `rand` stands for the value drawn
from `Math.random()`, which lies in `[0, 1)`. -/
def calculateBackoff (cfg : RetryConfig) (attempt : Nat) (rand : ℚ) : ℚ :=
  let delay := cfg.baseDelayMs * 2 ^ attempt
  let jitter := rand * (3 / 10) * delay
  min (delay + jitter) cfg.maxDelayMs

/-- The `for` loop of `executeWithRetry`: `i` is the index of the next
attempt, the middle argument is the number of attempts still allowed, and
the last argument is `lastError` (`none` models the initial `null`). -/
def executeWithRetryGo {ε α : Type} (f : Nat → Except ε α) :
    Nat → Nat → Option ε → Except (Option ε) α × Nat
  | i, 0, last => (.error last, i)
  | i, n + 1, last =>
    match f i with
    | .ok v => (.ok v, i + 1)
    | .error e => executeWithRetryGo f (i + 1) n (some e)

def executeWithRetry {ε α : Type} (maxAttempts : Nat) (f : Nat → Except ε α) :
    Except (Option ε) α × Nat :=
  executeWithRetryGo f 0 maxAttempts none

structure HttpResponse (δ : Type) where
  status : Nat
  data : Option δ

/-- One attempt of `HttpClient.post`: a fetch that completes yields
`\x7bstatus, data\x7d` regardless of the status code; only a thrown fetch
propagates as an error. -/
def postAttempt {ε δ : Type} (fetchResult : Except ε (Nat × Option δ)) :
    Except ε (HttpResponse δ) :=
  match fetchResult with
  | .ok (s, d) => .ok { status := s, data := d }
  | .error e => .error e

/-- `HttpClient.post`: the attempt body wrapped in `executeWithRetry`.
`fetch i` is the outcome of the `i`-th fetch of this request. -/
def post {ε δ : Type} (maxAttempts : Nat) (fetch : Nat → Except ε (Nat × Option δ)) :
    Except (Option ε) (HttpResponse δ) × Nat :=
  executeWithRetry maxAttempts (fun i => postAttempt (fetch i))

/-! ## Log accumulator (src/logger.ts) -/

inductive LogLevel
  | debug
  | info
  | warn
  | error
deriving DecidableEq, Repr

structure LogEntry (V : Type) where
  message : String
  level : LogLevel
  tags : Option (Obj V)
deriving DecidableEq

/-- The observable state of a `LogDotLogger` instance.  The transport and
config are shared by all derived loggers; only `hostname` matters for
payloads, so it stands in for the config here. -/
structure LoggerState (V : Type) where
  hostname : String
  batchMode : Bool
  batchQueue : List (LogEntry V)
  context : Obj V
deriving DecidableEq

/-- `new LogDotLogger(config, context)`: fresh batch state. -/
def mkLogger {V : Type} (hostname : String) (context : Obj V) : LoggerState V :=
  { hostname := hostname, batchMode := false, batchQueue := [], context := context }

/-- `LogDotLogger.withContext`: a new logger over the same config with the
spread-merged context.  The receiver is untouched (the embedding is pure,
mirroring that the source never writes to `this.context`). -/
def withContext {V : Type} (st : LoggerState V) (context : Obj V) : LoggerState V :=
  mkLogger st.hostname (spread st.context context)

/-- `LogDotLogger.getContext` returns a copy of the context object. -/
def getContext {V : Type} (st : LoggerState V) : Obj V :=
  st.context

/-- `LogDotLogger.mergeTags`: `undefined` when the context is empty and no
tags argument was passed (`none` models `undefined`; an explicitly empty
object is `some []`). -/
def mergeTags {V : Type} (st : LoggerState V) (tags : Option (Obj V)) : Option (Obj V) :=
  if st.context.length = 0 ∧ tags.isNone then none
  else some (spread st.context (tags.getD []))

/-- Payload of a single-log POST to `/logs`. -/
structure SingleLogPayload (V : Type) where
  message : String
  severity : LogLevel
  hostname : String
  tags : Option (Obj V)
deriving DecidableEq

/-- Entry shape inside the `/logs/batch` payload. -/
structure BatchLogItem (V : Type) where
  message : String
  severity : LogLevel
  tags : Option (Obj V)
deriving DecidableEq

/-- Payload of a batch POST to `/logs/batch`. -/
structure BatchLogPayload (V : Type) where
  hostname : String
  logs : List (BatchLogItem V)
deriving DecidableEq

/-- The conditionally-present `tags` key: included only when the entry has
a tags object with at least one key. -/
def payloadTags {V : Type} (tags : Option (Obj V)) : Option (Obj V) :=
  match tags with
  | some t => if t.length > 0 then some t else none
  | none => none

/-- The single-log payload built by `LogDotLogger.sendLog`. -/
def singleLogPayload {V : Type} (st : LoggerState V) (entry : LogEntry V) :
    SingleLogPayload V :=
  { message := entry.message, severity := entry.level, hostname := st.hostname,
    tags := payloadTags entry.tags }

/-- The per-entry shape of the batch payload built by `sendBatch`. -/
def batchItem {V : Type} (entry : LogEntry V) : BatchLogItem V :=
  { message := entry.message, severity := entry.level, tags := payloadTags entry.tags }

/-- `LogDotLogger.sendLog`.  `resp` is the outcome of `http.post` (an HTTP
status when the transport returned, `Except.error` when it threw after
exhausting retries); the returned `Option` is the payload POSTed. -/
def sendLog {V : Type} (st : LoggerState V) (entry : LogEntry V) (resp : Except Unit Nat) :
    Bool × LoggerState V × Option (SingleLogPayload V) :=
  let payload := singleLogPayload st entry
  match resp with
  | .ok status => (status == 200 || status == 201, st, some payload)
  | .error _ => (false, st, some payload)

/-- `LogDotLogger.log`: enqueue when in batch mode, else a single send. -/
def log {V : Type} (st : LoggerState V) (level : LogLevel) (message : String)
    (tags : Option (Obj V)) (resp : Except Unit Nat) :
    Bool × LoggerState V × Option (SingleLogPayload V) :=
  let entry : LogEntry V := ⟨message, level, mergeTags st tags⟩
  if st.batchMode then
    (true, { st with batchQueue := st.batchQueue ++ [entry] }, none)
  else
    sendLog st entry resp

/-- `LogDotLogger.beginBatch`. -/
def beginBatch {V : Type} (st : LoggerState V) : LoggerState V :=
  { st with batchMode := true, batchQueue := [] }

/-- `LogDotLogger.endBatch`. -/
def endBatch {V : Type} (st : LoggerState V) : LoggerState V :=
  { st with batchMode := false, batchQueue := [] }

/-- `LogDotLogger.sendBatch`. -/
def sendBatch {V : Type} (st : LoggerState V) (resp : Except Unit Nat) :
    Bool × LoggerState V × Option (BatchLogPayload V) :=
  if !st.batchMode || st.batchQueue.length == 0 then
    (false, st, none)
  else
    let payload : BatchLogPayload V :=
      { hostname := st.hostname, logs := st.batchQueue.map batchItem }
    match resp with
    | .ok status =>
      if status == 200 || status == 201 then
        (true, { st with batchQueue := [] }, some payload)
      else
        (false, st, some payload)
    | .error _ => (false, st, some payload)

/-! ## Bound metrics client (src/metrics.ts)

Metric values are modelled over `ℚ`; tag values are rendered to strings by
an explicit `render` parameter standing for JS template interpolation. -/

structure MetricEntry (V : Type) where
  name : String
  value : ℚ
  unit : String
  tags : Option (Obj V)

/-- `formatTags`: tags object to an array of key:value strings, `undefined`
when the object is absent or empty. -/
def formatTags {V : Type} (render : V → String) (tags : Option (Obj V)) :
    Option (List String) :=
  match tags with
  | none => none
  | some t =>
    if t.length = 0 then none
    else some (t.map (fun p => p.1 ++ ":" ++ render p.2))

/-- Mutable fields of a `BoundMetricsClient`. -/
structure MetricsClientState (V : Type) where
  entityId : String
  batchMode : Bool
  multiBatchMode : Bool
  batchMetricName : String
  batchUnit : String
  batchQueue : List (MetricEntry V)
  lastError : String
  lastHttpCode : Int

/-- `metrics.forEntity(id)`: a fresh bound client. -/
def forEntity {V : Type} (entityId : String) : MetricsClientState V :=
  { entityId := entityId, batchMode := false, multiBatchMode := false,
    batchMetricName := "", batchUnit := "", batchQueue := [],
    lastError := "", lastHttpCode := -1 }

/-- Payload of a single-metric POST to `/metrics`. -/
structure SingleMetricPayload where
  entityId : String
  name : String
  value : ℚ
  unit : String
  tags : Option (List String)

/-- `BoundMetricsClient.send`: direct delivery, refused in batch mode. -/
def send {V : Type} (st : MetricsClientState V) (render : V → String) (name : String)
    (value : ℚ) (unit : String) (tags : Option (Obj V)) (resp : Except String Nat) :
    Bool × MetricsClientState V × Option SingleMetricPayload :=
  if st.batchMode then
    (false,
     { st with lastError := "Cannot use send() in batch mode. Use add() or addMetric() instead." },
     none)
  else
    let payload : SingleMetricPayload :=
      { entityId := st.entityId, name := name, value := value, unit := unit,
        tags := formatTags render tags }
    match resp with
    | .ok status =>
      if status == 200 || status == 201 then
        (true, { st with lastHttpCode := status, lastError := "" }, some payload)
      else
        (false, { st with lastHttpCode := status, lastError := "HTTP " ++ toString status },
         some payload)
    | .error msg => (false, { st with lastError := msg }, some payload)

/-- `BoundMetricsClient.beginBatch(name, unit)`: single-metric batch mode. -/
def beginMetricBatch {V : Type} (st : MetricsClientState V) (metricName unit : String) :
    MetricsClientState V :=
  { st with batchMode := true, multiBatchMode := false,
            batchMetricName := metricName, batchUnit := unit, batchQueue := [] }

/-- `BoundMetricsClient.beginMultiBatch()`: multi-metric batch mode. -/
def beginMultiBatch {V : Type} (st : MetricsClientState V) : MetricsClientState V :=
  { st with batchMode := true, multiBatchMode := true, batchQueue := [] }

/-- `BoundMetricsClient.add(value, tags?)`: only in single-metric mode. -/
def add {V : Type} (st : MetricsClientState V) (value : ℚ) (tags : Option (Obj V)) :
    Bool × MetricsClientState V :=
  if !st.batchMode || st.multiBatchMode then
    (false, { st with lastError := "Not in single-metric batch mode. Call beginBatch() first." })
  else
    (true, { st with batchQueue :=
      st.batchQueue ++ [⟨st.batchMetricName, value, st.batchUnit, tags⟩] })

/-- `BoundMetricsClient.addMetric(name, value, unit, tags?)`: only in
multi-metric mode. -/
def addMetric {V : Type} (st : MetricsClientState V) (name : String) (value : ℚ)
    (unit : String) (tags : Option (Obj V)) : Bool × MetricsClientState V :=
  if !st.multiBatchMode then
    (false, { st with lastError := "Not in multi-metric batch mode. Call beginMultiBatch() first." })
  else
    (true, { st with batchQueue := st.batchQueue ++ [⟨name, value, unit, tags⟩] })

/-- `BoundMetricsClient.endBatch`. -/
def endMetricBatch {V : Type} (st : MetricsClientState V) : MetricsClientState V :=
  { st with batchMode := false, multiBatchMode := false, batchQueue := [] }

/-! ## Byte-safe truncator (src/utils.ts)

Strings are lists of `Char`; `TextEncoder` is the standard UTF-8 encoding
of the code points, and `TextDecoder` is a byte-level decoder emitting the
replacement character `0xFFFD` for malformed sequences.  The decoder
returns code points as `Nat` since a malformed input decodes to
`U+FFFD`. -/

def MAX_MESSAGE_BYTES : Nat := 16000

/-- UTF-8 encoding of one code point (as produced by `TextEncoder`). -/
def utf8EncodeChar (c : Char) : List Nat :=
  let n := c.toNat
  if n < 0x80 then [n]
  else if n < 0x800 then [0xc0 + n / 64, 0x80 + n % 64]
  else if n < 0x10000 then [0xe0 + n / 4096, 0x80 + n / 64 % 64, 0x80 + n % 64]
  else [0xf0 + n / 0x40000, 0x80 + n / 4096 % 64, 0x80 + n / 64 % 64, 0x80 + n % 64]

/-- `new TextEncoder().encode(str)`. -/
def utf8Encode (s : List Char) : List Nat :=
  s.flatMap utf8EncodeChar

/-- Encoded byte length of a string. -/
def utf8Len (s : List Char) : Nat :=
  (utf8Encode s).length

/-- The test `(encoded[i] & 0xc0) === 0x80` for a UTF-8 continuation byte. -/
def isCont (b : Nat) : Bool :=
  b &&& 0xc0 == 0x80

/-- The backwards walk `while (end > 0 && (encoded[end] & 0xc0) === 0x80) end--`
starting from the byte cutoff. -/
def walkBack (encoded : List Nat) : Nat → Nat
  | 0 => 0
  | e + 1 => if isCont (encoded.getD (e + 1) 0) then walkBack encoded e else e + 1

/-- `new TextDecoder().decode(bytes)`: UTF-8 decoding with `0xFFFD`
replacement of malformed sequences; a valid lead byte followed by the
required continuation bytes yields the reassembled code point, anything
else yields a replacement character and resumes at the next byte. -/
def utf8Decode : List Nat → List Nat
  | [] => []
  | b :: rest =>
    if b < 0x80 then b :: utf8Decode rest
    else if b < 0xc0 then 0xFFFD :: utf8Decode rest
    else if b < 0xe0 then
      if isCont (rest.getD 0 0) then
        ((b - 0xc0) * 64 + (rest.getD 0 0 - 0x80)) :: utf8Decode (rest.drop 1)
      else 0xFFFD :: utf8Decode rest
    else if b < 0xf0 then
      if isCont (rest.getD 0 0) && isCont (rest.getD 1 0) then
        ((b - 0xe0) * 4096 + (rest.getD 0 0 - 0x80) * 64 + (rest.getD 1 0 - 0x80)) ::
          utf8Decode (rest.drop 2)
      else 0xFFFD :: utf8Decode rest
    else if b < 0xf8 then
      if isCont (rest.getD 0 0) && isCont (rest.getD 1 0) && isCont (rest.getD 2 0) then
        ((b - 0xf0) * 0x40000 + (rest.getD 0 0 - 0x80) * 4096 + (rest.getD 1 0 - 0x80) * 64 +
          (rest.getD 2 0 - 0x80)) :: utf8Decode (rest.drop 3)
      else 0xFFFD :: utf8Decode rest
    else 0xFFFD :: utf8Decode rest
termination_by l => l.length
decreasing_by all_goals simp [List.length_cons, List.length_drop] <;> omega

/-- The fixed truncation marker appended by `truncateBytes`. -/
def truncMarker : List Char := "... [truncated]".data

/-- `truncateBytes` from src/utils.ts, as a function on code points: the
string unchanged when its encoding fits the budget, otherwise the decoded
byte prefix up to the walked-back boundary plus the marker. -/
def truncateBytes (s : List Char) (maxBytes : Nat) : List Nat :=
  let encoded := utf8Encode s
  if encoded.length ≤ maxBytes then s.map Char.toNat
  else
    let e := walkBack encoded maxBytes
    utf8Decode (encoded.take e) ++ truncMarker.map Char.toNat

/-! ## Console capture (src/console-capture.ts)

The five patched console methods share one wrapper body differing only in
severity.  A console argument is modelled by how `formatArgs` renders it:
a string passes through, an `Error` renders from its name, message and
stack, any other value renders via `JSON.stringify`, falling back to
`String(arg)` when stringification throws. -/

inductive ConsoleMethod
  | log
  | info
  | warn
  | error
  | debug
deriving DecidableEq, Repr

/-- `LEVEL_MAP`. -/
def levelMap : ConsoleMethod → LogLevel
  | .log => .info
  | .info => .info
  | .warn => .warn
  | .error => .error
  | .debug => .debug

inductive ConsoleArg
  | str (s : String)
  | err (name message stack : String)
  | json (rendered : String)
  | other (rendered : String)
deriving DecidableEq

/-- One argument as rendered inside `formatArgs`. -/
def formatArg : ConsoleArg → String
  | .str s => s
  | .err name message stack => name ++ ": " ++ message ++ "\n" ++ stack
  | .json rendered => rendered
  | .other rendered => rendered

/-- `formatArgs`: render each argument and join with spaces. -/
def formatArgs (args : List ConsoleArg) : String :=
  String.intercalate " " (args.map formatArg)

/-- `truncateBytes` at the `String` level with the default budget, used by
the console wrapper (`Char.ofNat` reassembles the decoded code points). -/
def truncateString (s : String) : String :=
  String.mk ((truncateBytes s.data MAX_MESSAGE_BYTES).map Char.ofNat)

structure BufferedLog where
  message : String
  severity : LogLevel
  tags : Obj String
deriving DecidableEq

/-- Mutable state of a `ConsoleCapture` instance. -/
structure CaptureState where
  hostname : String
  maxBufferSize : Nat
  buffer : List BufferedLog
  flushing : Bool
deriving DecidableEq

/-- Payload of the capture's batched POST to `/logs/batch` (tags are always
present here, `\x7bsource: "console"\x7d`). -/
structure CaptureBatchPayload where
  hostname : String
  logs : List BufferedLog
deriving DecidableEq

def consoleTags : Obj String := [("source", "console")]

/-- The first phase of `ConsoleCapture.flush`, up to issuing the POST:
no-op when the buffer is empty or a flush is in flight, otherwise detach
the whole buffer (`splice(0)`) and set the recursion guard.  The second
component is the list handed to the POST, `none` when no request is
issued. -/
def flushDetach (st : CaptureState) : CaptureState × Option (List BufferedLog) :=
  if st.buffer.length = 0 || st.flushing then (st, none)
  else ({ st with buffer := [], flushing := true }, some st.buffer)

/-- The `.finally` of the flush's POST: the guard is cleared whatever the
outcome was (success status, error status, or thrown transport error). -/
def flushSettle (st : CaptureState) (outcome : Except Unit Nat) : CaptureState :=
  { st with flushing := false }

/-- The payload of a flush's POST over the detached entries. -/
def flushPayload (hostname : String) (logs : List BufferedLog) : CaptureBatchPayload :=
  { hostname := hostname, logs := logs }

/-- Result of one call to a patched console method: the new capture state,
the arguments forwarded to the saved original (always the original
arguments, forwarded before anything else), and the POST payload when the
size cap triggered an immediate flush. -/
structure WrapperResult where
  state : CaptureState
  forwarded : List ConsoleArg
  request : Option CaptureBatchPayload
deriving DecidableEq

/-- The wrapper installed by `ConsoleCapture.patch` for `method`. -/
def wrapper (st : CaptureState) (method : ConsoleMethod) (args : List ConsoleArg) :
    WrapperResult :=
  if st.flushing then { state := st, forwarded := args, request := none }
  else
    let message := truncateString (formatArgs args)
    let st1 := { st with buffer :=
      st.buffer ++ [{ message := message, severity := levelMap method, tags := consoleTags }] }
    if st1.buffer.length ≥ st1.maxBufferSize then
      let detach := flushDetach st1
      { state := detach.1, forwarded := args,
        request := detach.2.map (flushPayload st1.hostname) }
    else
      { state := st1, forwarded := args, request := none }

/-! ## Metric exporter entity resolution (src/exporters/metrics.ts)

`entityPromise` is the shared pending-resolution handle; `entityPromiseSet`
records whether it is non-null.  A network outcome is an HTTP status plus
the optional `data.id` of the response envelope, or a thrown transport
error. -/

structure ExporterState where
  entityName : String
  entityId : Option String
  entityPromiseSet : Bool
deriving DecidableEq

/-- `LogDotMetricExporter.resolveEntity`: GET by name, fall back to POST
create; a thrown request is caught and resets `entityPromise` so the next
export retries; requests that complete without producing an id leave the
state as is (apart from the promise staying set). -/
def resolveEntity (st : ExporterState)
    (getResp : Except Unit (Nat × Option String))
    (createResp : Except Unit (Nat × Option String)) : ExporterState :=
  match getResp with
  | .error _ => { st with entityPromiseSet := false }
  | .ok (status, oid) =>
    if status == 200 && oid.isSome then { st with entityId := oid }
    else
      match createResp with
      | .error _ => { st with entityPromiseSet := false }
      | .ok (status2, oid2) =>
        if (status2 == 200 || status2 == 201) && oid2.isSome then
          { st with entityId := oid2 }
        else st

/-- `LogDotMetricExporter.ensureEntity`: start a resolution only when no
promise is memoized.  The second component records whether a fresh
resolution (and hence a fresh lookup) was issued by this call. -/
def ensureEntity (st : ExporterState)
    (getResp : Except Unit (Nat × Option String))
    (createResp : Except Unit (Nat × Option String)) : ExporterState × Bool :=
  if st.entityPromiseSet then (st, false)
  else (resolveEntity { st with entityPromiseSet := true } getResp createResp, true)

/-! ## Metric exporter data conversion (src/exporters/metrics.ts) -/

/-- The fields read off a histogram point's value. -/
structure HistValue where
  sum : Option ℚ
  count : Option ℚ
  min : Option ℚ
  max : Option ℚ
deriving DecidableEq

inductive MetricValue
  | num (v : ℚ)
  | hist (h : HistValue)
deriving DecidableEq

/-- OTel attributes: values may be null/undefined (`none`), which
`formatTags` filters out; others are shown via template interpolation. -/
structure ExpDataPoint where
  value : MetricValue
  attributes : Obj (Option String)
deriving DecidableEq

inductive DataPointKind
  | gauge
  | sum
  | histogram
deriving DecidableEq

structure ExpMetricData where
  name : String
  unit : String
  kind : DataPointKind
  dataPoints : List ExpDataPoint
deriving DecidableEq

/-- Entry shape of the exporter's `/metrics/batch` payload. -/
structure ExportPayload where
  name : String
  value : ℚ
  unit : String
  tags : Option (List String)
deriving DecidableEq

/-- The exporter's `formatTags`: key:value strings, skipping null-valued
attributes, `undefined` when there are no attributes at all. -/
def formatTagsE (attributes : Obj (Option String)) : Option (List String) :=
  if attributes.length = 0 then none
  else some ((attributes.filter (fun p => p.2.isSome)).map
    (fun p => p.1 ++ ":" ++ p.2.getD ""))

/-- `Math.round(avg * 100) / 100` (`Math.round x = ⌊x + 1/2⌋`). -/
def round2 (q : ℚ) : ℚ :=
  round (q * 100) / 100

/-- The `DataPointType.HISTOGRAM` arm of `convertMetricData`, for one data
point: up to four derived entries, in the order count, avg, min, max. -/
def convertHistogramPoint (baseName unit : String) (hist : HistValue)
    (tags : Option (List String)) : List ExportPayload :=
  (match hist.count with
   | some c =>
     if c > 0 then
       { name := baseName ++ ".count", value := c, unit := "1", tags := tags } ::
       (match hist.sum with
        | some s =>
          let avg := s / c
          if avg ≥ 0 then
            [{ name := baseName ++ ".avg", value := round2 avg, unit := unit, tags := tags }]
          else []
        | none => [])
     else []
   | none => []) ++
  (match hist.min with
   | some m =>
     if m ≥ 0 then [{ name := baseName ++ ".min", value := m, unit := unit, tags := tags }]
     else []
   | none => []) ++
  (match hist.max with
   | some m =>
     if m ≥ 0 then [{ name := baseName ++ ".max", value := m, unit := unit, tags := tags }]
     else []
   | none => [])

/-- `LogDotMetricExporter.convertMetricData`. -/
def convertMetricData (md : ExpMetricData) : List ExportPayload :=
  let unit := if md.unit = "" then "1" else md.unit
  match md.kind with
  | .gauge | .sum =>
    md.dataPoints.flatMap (fun p =>
      let value := match p.value with
        | .num v => v
        | .hist _ => 0
      if value < 0 then []
      else [{ name := md.name, value := value, unit := unit,
              tags := formatTagsE p.attributes }])
  | .histogram =>
    md.dataPoints.flatMap (fun p =>
      match p.value with
      | .hist h => convertHistogramPoint md.name unit h (formatTagsE p.attributes)
      | .num _ =>
        convertHistogramPoint md.name unit ⟨none, none, none, none⟩
          (formatTagsE p.attributes))

/-! ## Object lookup lemmas -/

theorem lookup_map_override {V : Type} (a b : Obj V) (k : String) :
    (a.map (fun p =>
      match b.lookup p.1 with
      | some v => (p.1, v)
      | none => p)).lookup k
    = (a.lookup k).map (fun v => (b.lookup k).getD v) := by
  induction a with
  | nil => simp
  | cons p a ih =>
    obtain ⟨k0, v0⟩ := p
    by_cases hk : k = k0
    · subst hk
      cases hb : b.lookup k <;> simp [List.lookup, hb]
    · have hbeq : (k == k0) = false := beq_false_of_ne hk
      cases hb : b.lookup k0 <;> simp [List.lookup, hb, hbeq, ih]

theorem lookup_filter_absent {V : Type} (a b : Obj V) (k : String) :
    (b.filter (fun p => (a.lookup p.1).isNone)).lookup k
    = if (a.lookup k).isNone then b.lookup k else none := by
  induction b with
  | nil => simp
  | cons p b ih =>
    obtain ⟨k1, v1⟩ := p
    by_cases hk : k = k1
    · subst hk
      cases ha : a.lookup k <;> simp [List.lookup, ha, List.filter, ih]
    · have hbeq : (k == k1) = false := beq_false_of_ne hk
      cases ha : a.lookup k1 <;>
        simp [List.lookup, ha, List.filter, hbeq, ih]

/-- Looking a key up in a spread merge: `b`'s binding wins, else `a`'s. -/
theorem lookup_spread {V : Type} (a b : Obj V) (k : String) :
    (spread a b).lookup k = Option.or (b.lookup k) (a.lookup k) := by
  unfold spread
  rw [List.lookup_append, lookup_map_override, lookup_filter_absent]
  cases ha : a.lookup k <;> cases hb : b.lookup k <;> simp [Option.or]

/-! ## Retry loop lemmas -/

theorem executeWithRetryGo_attempts_le {ε α : Type} (f : Nat → Except ε α) :
    ∀ (n i : Nat) (last : Option ε), (executeWithRetryGo f i n last).2 ≤ i + n := by
  intro n
  induction n with
  | zero => intro i _; simp [executeWithRetryGo]
  | succ n ih =>
    intro i last
    simp only [executeWithRetryGo]
    cases f i with
    | ok v => exact show i + 1 ≤ i + (n + 1) from by omega
    | error e => exact (ih (i + 1) (some e)).trans (by omega)

theorem executeWithRetryGo_first_ok {ε α : Type} (f : Nat → Except ε α) :
    ∀ (k n i : Nat) (last : Option ε) (v : α),
      (∀ j, j < k → ∃ e, f (i + j) = .error e) → f (i + k) = .ok v → k < n →
      executeWithRetryGo f i n last = (.ok v, i + k + 1) := by
  intro k
  induction k with
  | zero =>
    intro n i last v _ hok hn
    obtain ⟨n, rfl⟩ : ∃ m, n = m + 1 := ⟨n - 1, by omega⟩
    rw [show i + 0 = i by omega] at hok
    simp [executeWithRetryGo, hok]
  | succ k ih =>
    intro n i last v hfail hok hn
    obtain ⟨n, rfl⟩ : ∃ m, n = m + 1 := ⟨n - 1, by omega⟩
    obtain ⟨e, he⟩ := hfail 0 (by omega)
    rw [show i + 0 = i by omega] at he
    simp only [executeWithRetryGo, he]
    have := ih n (i + 1) (some e) v
      (fun j hj => by
        obtain ⟨e', he'⟩ := hfail (j + 1) (by omega)
        exact ⟨e', by rw [show i + 1 + j = i + (j + 1) by omega]; exact he'⟩)
      (by rw [show i + 1 + k = i + (k + 1) by omega]; exact hok) (by omega)
    rw [this]
    congr 1
    omega

theorem executeWithRetryGo_all_fail {ε α : Type} (f : Nat → Except ε α) (g : Nat → ε) :
    ∀ (n i : Nat) (last : Option ε),
      (∀ j, j < n → f (i + j) = .error (g (i + j))) → 1 ≤ n →
      executeWithRetryGo f i n last = (.error (some (g (i + n - 1))), i + n) := by
  intro n
  induction n with
  | zero => intro i last _ h; omega
  | succ n ih =>
    intro i last hfail _
    have h0 := hfail 0 (by omega)
    rw [show i + 0 = i by omega] at h0
    simp only [executeWithRetryGo, h0]
    cases n with
    | zero => simp [executeWithRetryGo]
    | succ m =>
      have := ih (i + 1) (some (g i))
        (fun j hj => by
          rw [show i + 1 + j = i + (j + 1) by omega]
          exact hfail (j + 1) (by omega)) (by omega)
      have e2 : i + 1 + (m + 1) = i + (m + 1 + 1) := by omega
      rw [this, e2]

/-! ## UTF-8 lemmas for the truncator -/

theorem char_toNat_lt (c : Char) : c.toNat < 0x110000 := by
  rcases c.valid with h | ⟨h1, h2⟩
  · exact Nat.lt_trans h (by norm_num)
  · exact h2

theorem isCont_low : ∀ b, b < 0x80 → isCont b = false := by decide
theorem isCont_cont : ∀ m, m < 64 → isCont (0x80 + m) = true := by decide
theorem isCont_lead2 : ∀ m, m < 32 → isCont (0xc0 + m) = false := by decide
theorem isCont_lead3 : ∀ m, m < 16 → isCont (0xe0 + m) = false := by decide
theorem isCont_lead4 : ∀ m, m < 8 → isCont (0xf0 + m) = false := by decide

theorem utf8EncodeChar_structure (c : Char) :
    ∃ b t, utf8EncodeChar c = b :: t ∧ isCont b = false ∧ ∀ x ∈ t, isCont x = true := by
  have hvalid : c.toNat < 0x110000 := char_toNat_lt c
  by_cases h1 : c.toNat < 0x80
  · exact ⟨c.toNat, [], by simp [utf8EncodeChar, h1], isCont_low _ h1, by simp⟩
  · by_cases h2 : c.toNat < 0x800
    · refine ⟨0xc0 + c.toNat / 64, [0x80 + c.toNat % 64],
        by simp [utf8EncodeChar, h1, h2], isCont_lead2 _ (by omega), ?_⟩
      intro x hx
      simp only [List.mem_singleton] at hx
      subst hx
      exact isCont_cont _ (by omega)
    · by_cases h3 : c.toNat < 0x10000
      · refine ⟨0xe0 + c.toNat / 4096, [0x80 + c.toNat / 64 % 64, 0x80 + c.toNat % 64],
          by simp [utf8EncodeChar, h1, h2, h3], isCont_lead3 _ (by omega), ?_⟩
        intro x hx
        simp only [List.mem_cons, List.not_mem_nil, or_false] at hx
        rcases hx with rfl | rfl
        · exact isCont_cont _ (by omega)
        · exact isCont_cont _ (by omega)
      · refine ⟨0xf0 + c.toNat / 0x40000,
          [0x80 + c.toNat / 4096 % 64, 0x80 + c.toNat / 64 % 64, 0x80 + c.toNat % 64],
          by simp [utf8EncodeChar, h1, h2, h3], isCont_lead4 _ (by omega), ?_⟩
        intro x hx
        simp only [List.mem_cons, List.not_mem_nil, or_false] at hx
        rcases hx with rfl | rfl | rfl
        · exact isCont_cont _ (by omega)
        · exact isCont_cont _ (by omega)
        · exact isCont_cont _ (by omega)

theorem utf8EncodeChar_length_pos (c : Char) : 0 < (utf8EncodeChar c).length := by
  obtain ⟨b, t, hbt, _, _⟩ := utf8EncodeChar_structure c
  simp [hbt]

set_option maxRecDepth 4000 in
theorem utf8Decode_bytes2 (n : Nat) (h1 : 0x80 ≤ n) (h2 : n < 0x800) (rest : List Nat) :
    utf8Decode ((0xc0 + n / 64) :: (0x80 + n % 64) :: rest) = n :: utf8Decode rest := by
  have ha : ¬ (0xc0 + n / 64 < 0x80) := by omega
  have hb : ¬ (0xc0 + n / 64 < 0xc0) := by omega
  have hc : 0xc0 + n / 64 < 0xe0 := by omega
  have hcont : isCont (0x80 + n % 64) = true := isCont_cont _ (by omega)
  rw [utf8Decode, if_neg ha, if_neg hb, if_pos hc]
  simp only [List.getD_cons_zero, hcont, if_pos, List.drop_succ_cons, List.drop_zero]
  congr 1
  omega

set_option maxRecDepth 4000 in
theorem utf8Decode_bytes3 (n : Nat) (h1 : 0x800 ≤ n) (h2 : n < 0x10000) (rest : List Nat) :
    utf8Decode ((0xe0 + n / 4096) :: (0x80 + n / 64 % 64) :: (0x80 + n % 64) :: rest)
      = n :: utf8Decode rest := by
  have ha : ¬ (0xe0 + n / 4096 < 0x80) := by omega
  have hb : ¬ (0xe0 + n / 4096 < 0xc0) := by omega
  have hc : ¬ (0xe0 + n / 4096 < 0xe0) := by omega
  have hd : 0xe0 + n / 4096 < 0xf0 := by omega
  have hcont1 : isCont (0x80 + n / 64 % 64) = true := isCont_cont _ (by omega)
  have hcont2 : isCont (0x80 + n % 64) = true := isCont_cont _ (by omega)
  rw [utf8Decode, if_neg ha, if_neg hb, if_neg hc, if_pos hd]
  simp only [List.getD_cons_zero, List.getD_cons_succ, hcont1, hcont2, Bool.and_self,
    if_pos, List.drop_succ_cons, List.drop_zero]
  congr 1
  omega

set_option maxRecDepth 4000 in
theorem utf8Decode_bytes4 (n : Nat) (h1 : 0x10000 ≤ n) (h2 : n < 0x110000) (rest : List Nat) :
    utf8Decode ((0xf0 + n / 0x40000) :: (0x80 + n / 4096 % 64) :: (0x80 + n / 64 % 64) ::
        (0x80 + n % 64) :: rest)
      = n :: utf8Decode rest := by
  have ha : ¬ (0xf0 + n / 0x40000 < 0x80) := by omega
  have hb : ¬ (0xf0 + n / 0x40000 < 0xc0) := by omega
  have hc : ¬ (0xf0 + n / 0x40000 < 0xe0) := by omega
  have hd : ¬ (0xf0 + n / 0x40000 < 0xf0) := by omega
  have he : 0xf0 + n / 0x40000 < 0xf8 := by omega
  have hcont1 : isCont (0x80 + n / 4096 % 64) = true := isCont_cont _ (by omega)
  have hcont2 : isCont (0x80 + n / 64 % 64) = true := isCont_cont _ (by omega)
  have hcont3 : isCont (0x80 + n % 64) = true := isCont_cont _ (by omega)
  rw [utf8Decode, if_neg ha, if_neg hb, if_neg hc, if_neg hd, if_pos he]
  simp only [List.getD_cons_zero, List.getD_cons_succ, hcont1, hcont2, hcont3, Bool.and_self,
    if_pos, List.drop_succ_cons, List.drop_zero]
  congr 1
  omega

set_option maxRecDepth 4000 in
theorem utf8Decode_encodeChar (c : Char) (rest : List Nat) :
    utf8Decode (utf8EncodeChar c ++ rest) = c.toNat :: utf8Decode rest := by
  have hvalid : c.toNat < 0x110000 := char_toNat_lt c
  by_cases h1 : c.toNat < 0x80
  · simp only [utf8EncodeChar, if_pos h1, List.cons_append, List.nil_append]
    rw [utf8Decode, if_pos h1]
  · by_cases h2 : c.toNat < 0x800
    · simp only [utf8EncodeChar, if_neg h1, if_pos h2, List.cons_append, List.nil_append]
      exact utf8Decode_bytes2 c.toNat (by omega) h2 rest
    · by_cases h3 : c.toNat < 0x10000
      · simp only [utf8EncodeChar, if_neg h1, if_neg h2, if_pos h3, List.cons_append,
          List.nil_append]
        exact utf8Decode_bytes3 c.toNat (by omega) h3 rest
      · simp only [utf8EncodeChar, if_neg h1, if_neg h2, if_neg h3, List.cons_append,
          List.nil_append]
        exact utf8Decode_bytes4 c.toNat (by omega) hvalid rest

theorem utf8Encode_cons (c : Char) (s : List Char) :
    utf8Encode (c :: s) = utf8EncodeChar c ++ utf8Encode s := by
  simp [utf8Encode]

theorem utf8Encode_append (a b : List Char) :
    utf8Encode (a ++ b) = utf8Encode a ++ utf8Encode b := by
  simp [utf8Encode]

theorem utf8Decode_encode (s : List Char) :
    utf8Decode (utf8Encode s) = s.map Char.toNat := by
  induction s with
  | nil => simp [utf8Encode, utf8Decode]
  | cons c s ih =>
    rw [utf8Encode_cons, utf8Decode_encodeChar, ih]
    rfl

theorem utf8Len_cons (c : Char) (s : List Char) :
    utf8Len (c :: s) = (utf8EncodeChar c).length + utf8Len s := by
  simp [utf8Len, utf8Encode_cons]

theorem utf8Len_append (a b : List Char) :
    utf8Len (a ++ b) = utf8Len a + utf8Len b := by
  simp [utf8Len, utf8Encode_append]

theorem utf8Len_take_mono (s : List Char) (i j : Nat) (hij : i ≤ j) :
    utf8Len (s.take i) ≤ utf8Len (s.take j) := by
  have h : s.take j = s.take i ++ (s.drop i).take (j - i) := by
    rw [← List.take_add]
    congr 1
    omega
  rw [h, utf8Len_append]
  omega

theorem utf8Len_take_succ_lt (s : List Char) (k : Nat) (hk : k < s.length) :
    utf8Len (s.take k) < utf8Len (s.take (k + 1)) := by
  rw [List.take_succ, utf8Len_append]
  have hget : s[k]? = some s[k] := List.getElem?_eq_getElem hk
  rw [hget]
  have hpos := utf8EncodeChar_length_pos s[k]
  have hsing : utf8Len (some s[k]).toList = (utf8EncodeChar s[k]).length := by
    simp [utf8Len, utf8Encode]
  omega

theorem utf8Len_take_of_length_le (s : List Char) (k : Nat) (hk : s.length ≤ k) :
    utf8Len (s.take k) = utf8Len s := by
  rw [List.take_of_length_le hk]

theorem utf8_boundary_iff (s : List Char) :
    ∀ j, j < utf8Len s →
      (isCont ((utf8Encode s).getD j 0) = false ↔
        ∃ k, k ≤ s.length ∧ j = utf8Len (s.take k)) := by
  induction s with
  | nil => intro j hj; simp [utf8Len, utf8Encode] at hj
  | cons c s ih =>
    intro j hj
    obtain ⟨b, t, hbt, hb, ht⟩ := utf8EncodeChar_structure c
    have hlenc : (utf8EncodeChar c).length = t.length + 1 := by simp [hbt]
    rw [utf8Encode_cons]
    by_cases hjlt : j < (utf8EncodeChar c).length
    · rw [List.getD_append _ _ _ _ hjlt]
      rcases Nat.eq_zero_or_pos j with rfl | hjpos
      · rw [hbt]
        simp only [List.getD_cons_zero]
        constructor
        · intro _
          exact ⟨0, by omega, by simp [utf8Len, utf8Encode]⟩
        · intro _
          exact hb
      · have hmem : (utf8EncodeChar c).getD j 0 ∈ t := by
          rw [hbt]
          obtain ⟨j', rfl⟩ : ∃ j', j = j' + 1 := ⟨j - 1, by omega⟩
          simp only [List.getD_cons_succ]
          have hj't : j' < t.length := by omega
          rw [List.getD_eq_getElem _ _ hj't]
          exact List.getElem_mem hj't
        have hcont := ht _ hmem
        constructor
        · intro hfalse
          rw [hcont] at hfalse
          cases hfalse
        · rintro ⟨k, hk, hkeq⟩
          exfalso
          cases k with
          | zero => simp [utf8Len, utf8Encode] at hkeq; omega
          | succ k' =>
            rw [List.take_succ_cons, utf8Len_cons] at hkeq
            omega
    · push_neg at hjlt
      rw [List.getD_append_right _ _ _ _ hjlt]
      have hjs : j - (utf8EncodeChar c).length < utf8Len s := by
        rw [utf8Len_cons] at hj
        omega
      rw [ih _ hjs]
      constructor
      · rintro ⟨k, hk, hkeq⟩
        refine ⟨k + 1, by simpa using Nat.succ_le_succ hk, ?_⟩
        rw [List.take_succ_cons, utf8Len_cons]
        omega
      · rintro ⟨k, hk, hkeq⟩
        cases k with
        | zero =>
          exfalso
          simp [utf8Len, utf8Encode] at hkeq
          omega
        | succ k' =>
          rw [List.take_succ_cons, utf8Len_cons] at hkeq
          exact ⟨k', by simpa using hk, by omega⟩

theorem walkBack_le (enc : List Nat) (p : Nat) : walkBack enc p ≤ p := by
  induction p with
  | zero => simp [walkBack]
  | succ p ih =>
    rw [walkBack]
    split
    · omega
    · omega

theorem walkBack_boundary (enc : List Nat) (p : Nat) :
    walkBack enc p = 0 ∨ isCont (enc.getD (walkBack enc p) 0) = false := by
  induction p with
  | zero => left; rfl
  | succ p ih =>
    rw [walkBack]
    split
    · exact ih
    · rename_i h
      right
      simpa using h

theorem walkBack_cont_between (enc : List Nat) (p : Nat) :
    ∀ j, walkBack enc p < j → j ≤ p → isCont (enc.getD j 0) = true := by
  induction p with
  | zero => intro j h1 h2; omega
  | succ p ih =>
    intro j h1 h2
    by_cases hc : isCont (enc.getD (p + 1) 0) = true
    · rw [walkBack, if_pos hc] at h1
      rcases Nat.lt_or_ge j (p + 1) with hj | hj
      · exact ih j h1 (by omega)
      · have hje : j = p + 1 := by omega
        rw [hje]
        exact hc
    · rw [walkBack, if_neg hc] at h1
      omega

/-! ## Claim theorems -/

/-- C4: for every attempt index `i` and random draw `r` in `[0, 1)`, the
backoff delay equals `min(baseDelay * 2^i + r * 0.3 * baseDelay * 2^i,
maxDelay)`; the uncapped delay lies in
`[baseDelay * 2^i, baseDelay * 2^i * 1.3]` and the result never exceeds
`maxDelay`. -/
theorem calculateBackoff_spec (cfg : RetryConfig) (i : Nat) (r : ℚ)
    (hr0 : 0 ≤ r) (hr1 : r < 1) (hb : 0 ≤ cfg.baseDelayMs) :
    calculateBackoff cfg i r
      = min (cfg.baseDelayMs * 2 ^ i + r * (3 / 10) * (cfg.baseDelayMs * 2 ^ i))
          cfg.maxDelayMs
    ∧ cfg.baseDelayMs * 2 ^ i
        ≤ cfg.baseDelayMs * 2 ^ i + r * (3 / 10) * (cfg.baseDelayMs * 2 ^ i)
    ∧ cfg.baseDelayMs * 2 ^ i + r * (3 / 10) * (cfg.baseDelayMs * 2 ^ i)
        ≤ cfg.baseDelayMs * 2 ^ i * (13 / 10)
    ∧ calculateBackoff cfg i r ≤ cfg.maxDelayMs := by
  have hD : (0 : ℚ) ≤ cfg.baseDelayMs * 2 ^ i := by positivity
  refine ⟨rfl, by nlinarith, by nlinarith, ?_⟩
  simp only [calculateBackoff]
  exact min_le_right _ _

theorem calculateBackoff_spec_witness :
    (0 : ℚ) ≤ 1 / 2 ∧ (1 / 2 : ℚ) < 1 ∧ (0 : ℚ) ≤ (1000 : ℚ)
    ∧ calculateBackoff ⟨3, 1000, 30000⟩ 2 (1 / 2) ≤ 30000 := by
  refine ⟨by norm_num, by norm_num, by norm_num, ?_⟩
  exact (calculateBackoff_spec ⟨3, 1000, 30000⟩ 2 (1 / 2)
    (by norm_num) (by norm_num) (by norm_num)).2.2.2

/-- C3: the transport retries only thrown attempts.  A fetch that completes
(any status `s`, 2xx or not) ends the loop immediately with that response
after exactly `i + 1` attempts; the attempt count never exceeds
`maxAttempts`; and when every attempt throws, the error of the last attempt
is the one propagated. -/
theorem post_retry_spec {ε δ : Type} (maxAttempts i : Nat)
    (fetch : Nat → Except ε (Nat × Option δ)) (s : Nat) (d : Option δ) (g : Nat → ε) :
    (post maxAttempts fetch).2 ≤ maxAttempts
    ∧ (i < maxAttempts → fetch i = .ok (s, d) →
        (∀ j, j < i → fetch j = .error (g j)) →
        post maxAttempts fetch = (.ok ⟨s, d⟩, i + 1))
    ∧ (1 ≤ maxAttempts → (∀ j, j < maxAttempts → fetch j = .error (g j)) →
        post maxAttempts fetch = (.error (some (g (maxAttempts - 1))), maxAttempts)) := by
  refine ⟨?_, ?_, ?_⟩
  · have := executeWithRetryGo_attempts_le
      (fun j => postAttempt (fetch j)) maxAttempts 0 none
    simpa [post, executeWithRetry] using this
  · intro hi hok hfail
    have := executeWithRetryGo_first_ok (fun j => postAttempt (fetch j)) i maxAttempts 0 none
      ⟨s, d⟩
      (fun j hj => ⟨g j, by simp only [Nat.zero_add, hfail j hj, postAttempt]⟩)
      (by simp only [Nat.zero_add, hok, postAttempt]) hi
    simpa [post, executeWithRetry, Nat.zero_add] using this
  · intro h1 hfail
    have := executeWithRetryGo_all_fail (fun j => postAttempt (fetch j)) g maxAttempts 0 none
      (fun j hj => by simp only [Nat.zero_add, hfail j hj, postAttempt]) h1
    simpa [post, executeWithRetry, Nat.zero_add] using this

theorem post_retry_spec_witness :
    ((post 3 (fun j => if j = 0 then .error "timeout"
        else .ok (503, (none : Option String)))).2 ≤ 3
      ∧ post 3 (fun j => if j = 0 then .error "timeout"
          else .ok (503, (none : Option String)))
        = (.ok ⟨503, none⟩, 2))
    ∧ post 2 (fun j => (.error (if j = 0 then "t0" else "t1") :
          Except String (Nat × Option String)))
      = (.error (some "t1"), 2) := by
  refine ⟨⟨?_, ?_⟩, ?_⟩
  · exact (post_retry_spec 3 1 _ 503 none (fun _ => "timeout")).1
  · exact (post_retry_spec 3 1 _ 503 none (fun _ => "timeout")).2.1 (by norm_num) rfl
      (fun j hj => by interval_cases j <;> rfl)
  · exact (post_retry_spec 2 0 _ 0 none (fun j => if j = 0 then "t0" else "t1")).2.2
      (by norm_num) (fun j hj => by interval_cases j <;> rfl)

/-- C5: `withContext(X)` yields an accumulator whose context is the spread
merge of the receiver's context with `X` (`X` wins on collision, witnessed
by the lookup characterization), the receiver's own context is untouched
(structurally: `withContext` builds a fresh record and `getContext` on the
receiver still returns its original context), and chaining `withContext(X)`
then `withContext(Y)` gives the context `\x7b...A.context, ...X, ...Y\x7d`. -/
theorem withContext_spec {V : Type} (A : LoggerState V) (X Y : Obj V) :
    getContext (withContext A X) = spread (getContext A) X
    ∧ (∀ k, (getContext (withContext A X)).lookup k
        = Option.or (X.lookup k) ((getContext A).lookup k))
    ∧ getContext (withContext (withContext A X) Y)
        = spread (spread (getContext A) X) Y
    ∧ (∀ k, (getContext (withContext (withContext A X) Y)).lookup k
        = Option.or (Y.lookup k) (Option.or (X.lookup k) ((getContext A).lookup k)))
    ∧ getContext A = A.context := by
  refine ⟨rfl, fun k => lookup_spread _ _ _, rfl, fun k => ?_, rfl⟩
  show (spread (spread A.context X) Y).lookup k = _
  rw [lookup_spread, lookup_spread]
  rfl

/-- C1: `sendBatch` returns false with no network call when idle or the
queue is empty; otherwise it POSTs the whole queue in one hostname-keyed
payload, clears the queue and returns true exactly on a 200/201 response,
and on any other completed status or thrown transport error it returns
false with the queue (and whole state) unchanged, so a retry needs no
re-enqueuing. -/
theorem sendBatch_spec {V : Type} (st : LoggerState V) (resp : Except Unit Nat) :
    ((st.batchMode = false ∨ st.batchQueue = []) → sendBatch st resp = (false, st, none))
    ∧ (st.batchMode = true → st.batchQueue ≠ [] →
        (sendBatch st resp).2.2
          = some { hostname := st.hostname, logs := st.batchQueue.map batchItem }
        ∧ ((resp = .ok 200 ∨ resp = .ok 201) →
            sendBatch st resp = (true, { st with batchQueue := [] },
              some { hostname := st.hostname, logs := st.batchQueue.map batchItem }))
        ∧ (¬(resp = .ok 200 ∨ resp = .ok 201) →
            (sendBatch st resp).1 = false ∧ (sendBatch st resp).2.1 = st)) := by
  constructor
  · rintro (hmode | hqueue)
    · simp [sendBatch, hmode]
    · simp [sendBatch, hqueue]
  · intro hmode hqueue
    have hlen : (st.batchQueue.length == 0) = false := by
      simp [List.length_eq_zero, hqueue]
    refine ⟨?_, ?_, ?_⟩
    · simp only [sendBatch, hmode, hlen]
      cases resp with
      | ok status =>
        by_cases hst : status == 200 || status == 201 <;> simp [hst]
      | error e => simp
    · rintro (rfl | rfl) <;> simp [sendBatch, hmode, hlen]
    · intro hnot
      cases resp with
      | ok status =>
        have h200 : (status == 200) = false :=
          beq_false_of_ne (fun h => hnot (Or.inl (by rw [h])))
        have h201 : (status == 201) = false :=
          beq_false_of_ne (fun h => hnot (Or.inr (by rw [h])))
        simp [sendBatch, hmode, hlen, h200, h201]
      | error e => simp [sendBatch, hmode, hlen]

theorem sendBatch_spec_witness :
    sendBatch
        { hostname := "svc", batchMode := true,
          batchQueue := [⟨"a", .info, none⟩], context := ([] : Obj String) }
        (.ok 200)
      = (true,
         { hostname := "svc", batchMode := true, batchQueue := [], context := [] },
         some
           { hostname := "svc",
             logs := [{ message := "a", severity := .info, tags := none }] })
    ∧ ((sendBatch
          { hostname := "svc", batchMode := true,
            batchQueue := [⟨"a", .info, none⟩], context := ([] : Obj String) }
          (.ok 500)).1 = false
      ∧ (sendBatch
          { hostname := "svc", batchMode := true,
            batchQueue := [⟨"a", .info, none⟩], context := ([] : Obj String) }
          (.ok 500)).2.1
        = { hostname := "svc", batchMode := true,
            batchQueue := [⟨"a", .info, none⟩], context := [] })
    ∧ sendBatch
        { hostname := "svc", batchMode := false,
          batchQueue := [⟨"a", .info, none⟩], context := ([] : Obj String) }
        (.ok 200)
      = (false,
         { hostname := "svc", batchMode := false,
           batchQueue := [⟨"a", .info, none⟩], context := [] },
         none) := by
  refine ⟨?_, ?_, ?_⟩
  · have := ((sendBatch_spec (V := String)
      { hostname := "svc", batchMode := true,
        batchQueue := [⟨"a", .info, none⟩], context := [] }
      (.ok 200)).2 rfl (by simp)).2.1 (Or.inl rfl)
    simpa using this
  · exact ((sendBatch_spec (V := String)
      { hostname := "svc", batchMode := true,
        batchQueue := [⟨"a", .info, none⟩], context := [] }
      (.ok 500)).2 rfl (by simp)).2.2 (by rintro (h | h) <;> simp at h)
  · exact (sendBatch_spec (V := String)
      { hostname := "svc", batchMode := false,
        batchQueue := [⟨"a", .info, none⟩], context := [] }
      (.ok 200)).1 (Or.inl rfl)

/-- C10 (implicit): whenever the merged context-plus-tags mapping is empty
— including an explicitly passed empty tags object over an empty context —
both the single-log payload and the batch payload entry built for the log
call carry no `tags` key at all (`none`), never an empty mapping. -/
theorem emptyTags_omitted_spec {V : Type} (st : LoggerState V) (level : LogLevel)
    (message : String) (tags : Option (Obj V))
    (hempty : spread st.context (tags.getD []) = []) :
    (singleLogPayload st ⟨message, level, mergeTags st tags⟩).tags = none
    ∧ (batchItem (⟨message, level, mergeTags st tags⟩ : LogEntry V)).tags = none := by
  have h : payloadTags (mergeTags st tags) = none := by
    by_cases hc : st.context.length = 0 ∧ tags.isNone
    · simp [mergeTags, hc, payloadTags]
    · simp only [mergeTags, hempty]
      rw [if_neg hc]
      simp [payloadTags]
  exact ⟨h, h⟩

theorem emptyTags_omitted_spec_witness :
    (spread ([] : Obj String) ((some []).getD []) = []
      ∧ (singleLogPayload
          { hostname := "svc", batchMode := false, batchQueue := [],
            context := ([] : Obj String) }
          ⟨"hello", .info,
            mergeTags
              { hostname := "svc", batchMode := false, batchQueue := [],
                context := ([] : Obj String) }
              (some [])⟩).tags = none)
    ∧ (batchItem
        (⟨"hello", .info,
          mergeTags
            { hostname := "svc", batchMode := false, batchQueue := [],
              context := ([] : Obj String) }
            (some [])⟩ : LogEntry String)).tags = none := by
  refine ⟨⟨rfl, ?_⟩, ?_⟩
  · exact (emptyTags_omitted_spec
      { hostname := "svc", batchMode := false, batchQueue := [], context := [] }
      LogLevel.info "hello" (some []) rfl).1
  · exact (emptyTags_omitted_spec
      { hostname := "svc", batchMode := false, batchQueue := [], context := [] }
      LogLevel.info "hello" (some []) rfl).2

/-- C6: wrong-mode batch calls are refused without touching the queue:
`add()` fails in multi-metric mode and outside any batch mode, `addMetric()`
fails in single-metric mode and outside any batch mode, and `send()` fails
with no network call in either batch mode. -/
theorem mode_exclusivity_spec {V : Type} (st : MetricsClientState V) (render : V → String)
    (name : String) (value : ℚ) (unit : String) (tags : Option (Obj V))
    (resp : Except String Nat) :
    ((st.batchMode = true ∧ st.multiBatchMode = true) ∨
        (st.batchMode = false ∧ st.multiBatchMode = false) →
      (add st value tags).1 = false ∧ (add st value tags).2.batchQueue = st.batchQueue)
    ∧ ((st.batchMode = true ∧ st.multiBatchMode = false) ∨
        (st.batchMode = false ∧ st.multiBatchMode = false) →
      (addMetric st name value unit tags).1 = false
      ∧ (addMetric st name value unit tags).2.batchQueue = st.batchQueue)
    ∧ (st.batchMode = true →
      (send st render name value unit tags resp).1 = false
      ∧ (send st render name value unit tags resp).2.2 = none) := by
  refine ⟨?_, ?_, ?_⟩
  · rintro (⟨hb, hm⟩ | ⟨hb, hm⟩) <;> simp [add, hb, hm]
  · rintro (⟨hb, hm⟩ | ⟨hb, hm⟩) <;> simp [addMetric, hm]
  · intro hb
    simp [send, hb]

theorem mode_exclusivity_spec_witness :
    ((add (beginMultiBatch (forEntity "E1" : MetricsClientState String)) 1 none).1 = false
      ∧ (add (beginMultiBatch (forEntity "E1" : MetricsClientState String)) 1
          none).2.batchQueue
        = (beginMultiBatch (forEntity "E1" : MetricsClientState String)).batchQueue)
    ∧ ((addMetric (beginMetricBatch (forEntity "E1" : MetricsClientState String) "cpu" "pct")
          "mem" 2 "MB" none).1 = false
      ∧ (addMetric (beginMetricBatch (forEntity "E1" : MetricsClientState String) "cpu" "pct")
          "mem" 2 "MB" none).2.batchQueue
        = (beginMetricBatch (forEntity "E1" : MetricsClientState String)
            "cpu" "pct").batchQueue)
    ∧ ((send (beginMetricBatch (forEntity "E1" : MetricsClientState String) "cpu" "pct")
          (fun v => v) "cpu" 1 "pct" none (.ok 200)).1 = false
      ∧ (send (beginMetricBatch (forEntity "E1" : MetricsClientState String) "cpu" "pct")
          (fun v => v) "cpu" 1 "pct" none (.ok 200)).2.2 = none) := by
  refine ⟨?_, ?_, ?_⟩
  · exact (mode_exclusivity_spec (beginMultiBatch (forEntity "E1")) (fun v => v)
      "" 1 "" none (.ok 200)).1 (Or.inl ⟨rfl, rfl⟩)
  · exact (mode_exclusivity_spec (beginMetricBatch (forEntity "E1") "cpu" "pct") (fun v => v)
      "mem" 2 "MB" none (.ok 200)).2.1 (Or.inl ⟨rfl, rfl⟩)
  · exact (mode_exclusivity_spec (beginMetricBatch (forEntity "E1") "cpu" "pct") (fun v => v)
      "cpu" 1 "pct" none (.ok 200)).2.2 rfl

/-- C7: while the recursion guard is set, every patched console method
still forwards the original arguments to the saved original but buffers
nothing and triggers no flush, and `flush` is a no-op; settling the
in-flight POST clears the guard on success and on failure without touching
the buffer (so entries of a failed flush, which were detached up front, are
dropped and never re-queued); and a flush over a non-empty buffer with the
guard clear detaches the entire buffer and sets the guard. -/
theorem recursionGuard_spec (st : CaptureState) (method : ConsoleMethod)
    (args : List ConsoleArg) (outcome : Except Unit Nat) :
    (st.flushing = true →
      wrapper st method args = { state := st, forwarded := args, request := none }
      ∧ flushDetach st = (st, none))
    ∧ (flushSettle st outcome).flushing = false
    ∧ (flushSettle st outcome).buffer = st.buffer
    ∧ (st.flushing = false → st.buffer ≠ [] →
      flushDetach st = ({ st with buffer := [], flushing := true }, some st.buffer)) := by
  refine ⟨?_, rfl, rfl, ?_⟩
  · intro hf
    exact ⟨by simp [wrapper, hf], by simp [flushDetach, hf]⟩
  · intro hf hb
    have hlen : st.buffer.length ≠ 0 := by
      simpa [List.length_eq_zero] using hb
    simp [flushDetach, hf, hlen]

theorem recursionGuard_spec_witness :
    (wrapper
        { hostname := "svc", maxBufferSize := 100,
          buffer := [⟨"m", .info, consoleTags⟩], flushing := true }
        .log [.str "x"]
      = { state :=
            { hostname := "svc", maxBufferSize := 100,
              buffer := [⟨"m", .info, consoleTags⟩], flushing := true },
          forwarded := [.str "x"], request := none })
    ∧ (flushSettle
        { hostname := "svc", maxBufferSize := 100,
          buffer := [⟨"m", .info, consoleTags⟩], flushing := true }
        (.error ())).flushing = false
    ∧ flushDetach
        { hostname := "svc", maxBufferSize := 100,
          buffer := [⟨"m", .info, consoleTags⟩], flushing := false }
      = ({ hostname := "svc", maxBufferSize := 100, buffer := [], flushing := true },
         some [⟨"m", .info, consoleTags⟩]) := by
  refine ⟨?_, ?_, ?_⟩
  · exact ((recursionGuard_spec
      { hostname := "svc", maxBufferSize := 100,
        buffer := [⟨"m", .info, consoleTags⟩], flushing := true }
      .log [.str "x"] (.error ())).1 rfl).1
  · exact (recursionGuard_spec
      { hostname := "svc", maxBufferSize := 100,
        buffer := [⟨"m", .info, consoleTags⟩], flushing := true }
      .log [.str "x"] (.error ())).2.1
  · exact (recursionGuard_spec
      { hostname := "svc", maxBufferSize := 100,
        buffer := [⟨"m", .info, consoleTags⟩], flushing := false }
      .log [.str "x"] (.error ())).2.2.2 rfl (by simp)

/-- C8 counterexample: from a fresh exporter, a resolution whose GET
returns 404 and whose POST create completes with 500 yields no entity id,
yet the memoized promise stays set, so a subsequent export neither issues a
fresh lookup nor ever obtains an entity — refuting "every failed resolution
attempt resets the memo so that the next export attempt retries
resolution". -/
theorem ensureEntity_counterexample :
    ((ensureEntity ⟨"svc", none, false⟩ (.ok (404, none)) (.ok (500, none))).2 = true
      ∧ (ensureEntity ⟨"svc", none, false⟩ (.ok (404, none)) (.ok (500, none))).1.entityId
          = none
      ∧ (ensureEntity ⟨"svc", none, false⟩
          (.ok (404, none)) (.ok (500, none))).1.entityPromiseSet = true)
    ∧ (ensureEntity
        (ensureEntity ⟨"svc", none, false⟩ (.ok (404, none)) (.ok (500, none))).1
        (.ok (200, some "E1")) (.ok (201, some "E1"))).2 = false
    ∧ (ensureEntity
        (ensureEntity ⟨"svc", none, false⟩ (.ok (404, none)) (.ok (500, none))).1
        (.ok (200, some "E1")) (.ok (201, some "E1"))).1.entityId = none := by
  refine ⟨⟨rfl, rfl, rfl⟩, rfl, rfl⟩

/-- C8 amended: a successful resolution is memoized (no later export
re-resolves); a resolution attempt that **throws** (in the GET, or in the
POST after a completed non-matching GET) resets the memo so the next
export retries; but a resolution whose requests all **complete** without
yielding an id (e.g. 404 lookup then non-2xx create) leaves the memo set,
so subsequent exports skip without retrying resolution. -/
theorem ensureEntity_amended_spec (st : ExporterState)
    (g c g2 c2 : Except Unit (Nat × Option String)) (eid : String)
    (s1 s2 : Nat) (o1 o2 : Option String) :
    (st.entityPromiseSet = true → ensureEntity st g c = (st, false))
    ∧ (st.entityPromiseSet = false → g = .ok (200, some eid) →
        (ensureEntity st g c).1.entityId = some eid
        ∧ (ensureEntity st g c).1.entityPromiseSet = true
        ∧ ensureEntity (ensureEntity st g c).1 g2 c2 = ((ensureEntity st g c).1, false))
    ∧ (st.entityPromiseSet = false → g = .error () →
        (ensureEntity st g c).1.entityPromiseSet = false
        ∧ (ensureEntity (ensureEntity st g c).1 g2 c2).2 = true)
    ∧ (st.entityPromiseSet = false →
        g = .ok (s1, o1) → ¬(s1 = 200 ∧ o1.isSome) → c = .error () →
        (ensureEntity st g c).1.entityPromiseSet = false
        ∧ (ensureEntity (ensureEntity st g c).1 g2 c2).2 = true)
    ∧ (st.entityPromiseSet = false →
        g = .ok (s1, o1) → ¬(s1 = 200 ∧ o1.isSome) →
        c = .ok (s2, o2) → ¬((s2 = 200 ∨ s2 = 201) ∧ o2.isSome) →
        (ensureEntity st g c).1.entityId = st.entityId
        ∧ (ensureEntity st g c).1.entityPromiseSet = true
        ∧ (ensureEntity (ensureEntity st g c).1 g2 c2).2 = false) := by
  have hmemo : ∀ (st1 : ExporterState) (ga ca : Except Unit (Nat × Option String)),
      st1.entityPromiseSet = true → ensureEntity st1 ga ca = (st1, false) := by
    intro st1 ga ca h1
    simp [ensureEntity, h1]
  have hruns : ∀ (st1 : ExporterState) (ga ca : Except Unit (Nat × Option String)),
      st1.entityPromiseSet = false → (ensureEntity st1 ga ca).2 = true := by
    intro st1 ga ca h1
    simp [ensureEntity, h1]
  have hg1 : ∀ (a : Nat) (o : Option String), ¬(a = 200 ∧ o.isSome) →
      ((a == 200 && o.isSome) = false) := by
    intro a o hno
    rcases hb : o.isSome with _ | _
    · simp [hb]
    · have : a ≠ 200 := fun h => hno ⟨h, hb⟩
      simp [beq_false_of_ne this]
  refine ⟨fun h => hmemo st g c h, ?_, ?_, ?_, ?_⟩
  · rintro h rfl
    have hset : (ensureEntity st (.ok (200, some eid)) c).1.entityPromiseSet = true := by
      simp [ensureEntity, h, resolveEntity]
    exact ⟨by simp [ensureEntity, h, resolveEntity], hset, hmemo _ g2 c2 hset⟩
  · rintro h rfl
    have hreset : (ensureEntity st (.error ()) c).1.entityPromiseSet = false := by
      simp [ensureEntity, h, resolveEntity]
    exact ⟨hreset, hruns _ g2 c2 hreset⟩
  · rintro h rfl hno rfl
    have hreset : (ensureEntity st (.ok (s1, o1)) (.error ())).1.entityPromiseSet = false := by
      simp [ensureEntity, h, resolveEntity, hg1 s1 o1 hno]
    exact ⟨hreset, hruns _ g2 c2 hreset⟩
  · rintro h rfl hno1 rfl hno2
    have hc2 : ((s2 == 200 || s2 == 201) && o2.isSome) = false := by
      rcases hb : o2.isSome with _ | _
      · simp [hb]
      · have h200 : s2 ≠ 200 := fun hh => hno2 ⟨Or.inl hh, hb⟩
        have h201 : s2 ≠ 201 := fun hh => hno2 ⟨Or.inr hh, hb⟩
        simp [beq_false_of_ne h200, beq_false_of_ne h201]
    have hres : resolveEntity { st with entityPromiseSet := true }
        (.ok (s1, o1)) (.ok (s2, o2)) = { st with entityPromiseSet := true } := by
      simp [resolveEntity, hg1 s1 o1 hno1, hc2]
    have hset : (ensureEntity st (.ok (s1, o1)) (.ok (s2, o2))).1.entityPromiseSet = true := by
      simp [ensureEntity, h, hres]
    refine ⟨?_, hset, ?_⟩
    · simp [ensureEntity, h, hres]
    · rw [hmemo _ g2 c2 hset]

theorem ensureEntity_amended_spec_witness :
    (ensureEntity ⟨"svc", some "E0", true⟩ (.ok (200, some "E1")) (.ok (201, some "E1"))
      = (⟨"svc", some "E0", true⟩, false))
    ∧ (ensureEntity ⟨"svc", none, false⟩ (.ok (200, some "E1"))
        (.ok (201, some "E2"))).1.entityId = some "E1"
    ∧ (ensureEntity ⟨"svc", none, false⟩ (.error ())
        (.ok (201, some "E2"))).1.entityPromiseSet = false
    ∧ (ensureEntity
        (ensureEntity ⟨"svc", none, false⟩ (.ok (404, none)) (.error ())).1
        (.ok (200, some "E1")) (.ok (201, some "E1"))).2 = true
    ∧ (ensureEntity
        (ensureEntity ⟨"svc", none, false⟩ (.ok (404, none)) (.ok (500, none))).1
        (.ok (200, some "E1")) (.ok (201, some "E1"))).2 = false := by
  refine ⟨?_, ?_, ?_, ?_, ?_⟩
  · exact (ensureEntity_amended_spec ⟨"svc", some "E0", true⟩
      (.ok (200, some "E1")) (.ok (201, some "E1"))
      (.ok (200, some "E1")) (.ok (201, some "E1")) "E1" 0 0 none none).1 rfl
  · exact ((ensureEntity_amended_spec ⟨"svc", none, false⟩
      (.ok (200, some "E1")) (.ok (201, some "E2"))
      (.ok (200, some "E1")) (.ok (201, some "E1")) "E1" 0 0 none none).2.1 rfl rfl).1
  · exact ((ensureEntity_amended_spec ⟨"svc", none, false⟩
      (.error ()) (.ok (201, some "E2"))
      (.ok (200, some "E1")) (.ok (201, some "E1")) "E1" 0 0 none none).2.2.1 rfl rfl).1
  · exact ((ensureEntity_amended_spec ⟨"svc", none, false⟩
      (.ok (404, none)) (.error ())
      (.ok (200, some "E1")) (.ok (201, some "E1")) "E1" 404 0 none none).2.2.2.1 rfl rfl
      (by simp) rfl).2
  · exact ((ensureEntity_amended_spec ⟨"svc", none, false⟩
      (.ok (404, none)) (.ok (500, none))
      (.ok (200, some "E1")) (.ok (201, some "E1")) "E1" 404 500 none none).2.2.2.2 rfl rfl
      (by simp) rfl (by simp)).2.2

/-- C9 counterexample: a histogram point with `count = 0` (and defined
min/max) produces no `.count` entry although its value, 0, is not
negative — refuting "each of the four derived entries is skipped exactly
when its value would be negative".  (The `.min`/`.max` entries are still
emitted, showing the point itself is not skipped.) -/
theorem convertHistogramPoint_counterexample :
    convertHistogramPoint "m" "ms" ⟨none, some 0, some 5, some 7⟩ none
      = [{ name := "m.min", value := 5, unit := "ms", tags := none },
         { name := "m.max", value := 7, unit := "ms", tags := none }]
    ∧ ¬((0 : ℚ) < 0) := by
  refine ⟨?_, by norm_num⟩
  norm_num [convertHistogramPoint]
  exact ⟨rfl, rfl⟩

/-- C9 amended: a histogram point expands into up to four derived entries,
one optional singleton per suffix in the order `.count`, `.avg`, `.min`,
`.max`: the `.count` entry (unit "1") is emitted iff `count` is present and
**positive** (so a present but zero count is skipped although 0 is not
negative); the `.avg` entry is emitted iff additionally `sum` is present
and `sum/count` is nonnegative, with value `sum/count` rounded to 2
decimals; the `.min` (resp. `.max`) entry is emitted iff that field is
present and nonnegative, regardless of `count`. -/
theorem convertHistogramPoint_spec (b u : String) (h : HistValue)
    (tg : Option (List String)) :
    convertHistogramPoint b u h tg =
      (match h.count with
       | some c =>
         if 0 < c then [{ name := b ++ ".count", value := c, unit := "1", tags := tg }]
         else []
       | none => []) ++
      (match h.count, h.sum with
       | some c, some s =>
         if 0 < c ∧ 0 ≤ s / c then
           [{ name := b ++ ".avg", value := round2 (s / c), unit := u, tags := tg }]
         else []
       | _, _ => []) ++
      (match h.min with
       | some m =>
         if 0 ≤ m then [{ name := b ++ ".min", value := m, unit := u, tags := tg }]
         else []
       | none => []) ++
      (match h.max with
       | some m =>
         if 0 ≤ m then [{ name := b ++ ".max", value := m, unit := u, tags := tg }]
         else []
       | none => []) := by
  obtain ⟨hs, hc, hmn, hmx⟩ := h
  cases hc <;> cases hs <;>
    simp only [convertHistogramPoint] <;>
    (try split_ifs) <;>
    simp_all

/-- C2: a string whose UTF-8 encoding fits the byte budget is returned
unchanged; otherwise the result is the longest prefix of the string whose
UTF-8 encoding is at most the budget — a whole-character prefix, so the
decoded bytes are exactly those characters' code points with no
replacement character introduced by splitting — followed by the fixed
marker.  The embedding is a total function, so no exception is possible. -/
theorem truncateBytes_spec (s : List Char) (maxBytes : Nat) :
    (utf8Len s ≤ maxBytes → truncateBytes s maxBytes = s.map Char.toNat)
    ∧ (maxBytes < utf8Len s → ∃ k, k < s.length
        ∧ truncateBytes s maxBytes
            = (s.take k).map Char.toNat ++ truncMarker.map Char.toNat
        ∧ utf8Len (s.take k) ≤ maxBytes
        ∧ (∀ j, utf8Len (s.take j) ≤ maxBytes → j ≤ k)) := by
  constructor
  · intro h
    simp only [truncateBytes]
    rw [if_pos (show (utf8Encode s).length ≤ maxBytes from h)]
  · intro h
    have hlt : ¬ ((utf8Encode s).length ≤ maxBytes) := by
      have : maxBytes < (utf8Encode s).length := h
      omega
    have hele : walkBack (utf8Encode s) maxBytes ≤ maxBytes :=
      walkBack_le (utf8Encode s) maxBytes
    have hk : ∃ k, k ≤ s.length
        ∧ walkBack (utf8Encode s) maxBytes = utf8Len (s.take k) := by
      rcases walkBack_boundary (utf8Encode s) maxBytes with h0 | hbnd
      · exact ⟨0, by omega, by rw [h0]; simp [utf8Len, utf8Encode]⟩
      · have hje : walkBack (utf8Encode s) maxBytes < utf8Len s := by
          have : maxBytes < utf8Len s := h
          omega
        obtain ⟨k, hk1, hk2⟩ := (utf8_boundary_iff s _ hje).mp hbnd
        exact ⟨k, hk1, hk2⟩
    obtain ⟨k, hkle, hke⟩ := hk
    have hkmax : utf8Len (s.take k) ≤ maxBytes := by omega
    have hklt : k < s.length := by
      rcases Nat.lt_or_ge k s.length with h' | h'
      · exact h'
      · exfalso
        have heq := utf8Len_take_of_length_le s k h'
        omega
    have hmax : maxBytes < utf8Len (s.take (k + 1)) := by
      by_contra hcon
      push_neg at hcon
      have hgt : walkBack (utf8Encode s) maxBytes < utf8Len (s.take (k + 1)) := by
        have := utf8Len_take_succ_lt s k hklt
        omega
      have hcontj : isCont ((utf8Encode s).getD (utf8Len (s.take (k + 1))) 0) = true :=
        walkBack_cont_between (utf8Encode s) maxBytes _ hgt hcon
      have hlt2 : utf8Len (s.take (k + 1)) < utf8Len s := by
        have : maxBytes < utf8Len s := h
        omega
      have hbound : isCont ((utf8Encode s).getD (utf8Len (s.take (k + 1))) 0) = false :=
        (utf8_boundary_iff s _ hlt2).mpr ⟨k + 1, by omega, rfl⟩
      rw [hcontj] at hbound
      cases hbound
    refine ⟨k, hklt, ?_, hkmax, ?_⟩
    · have htake : (utf8Encode s).take (walkBack (utf8Encode s) maxBytes)
          = utf8Encode (s.take k) := by
        have hsplit : utf8Encode s = utf8Encode (s.take k) ++ utf8Encode (s.drop k) := by
          rw [← utf8Encode_append, List.take_append_drop]
        have hlen : (utf8Encode (s.take k)).length = walkBack (utf8Encode s) maxBytes := by
          rw [hke]
          rfl
        calc (utf8Encode s).take (walkBack (utf8Encode s) maxBytes)
            = (utf8Encode (s.take k) ++ utf8Encode (s.drop k)).take
                (utf8Encode (s.take k)).length := by rw [hlen, ← hsplit]
          _ = utf8Encode (s.take k) := List.take_left _ _
      simp only [truncateBytes]
      rw [if_neg hlt, htake, utf8Decode_encode]
    · intro j hj
      by_contra hcon
      push_neg at hcon
      have hmono := utf8Len_take_mono s (k + 1) j (by omega)
      omega

theorem truncateBytes_spec_witness :
    ((utf8Len "héllo".data ≤ 16 ∧ truncateBytes "héllo".data 16 = "héllo".data.map Char.toNat)
      ∧ (4 : Nat) < utf8Len "héllo".data)
    ∧ (∃ k, k < "héllo".data.length
        ∧ truncateBytes "héllo".data 4
            = ("héllo".data.take k).map Char.toNat ++ truncMarker.map Char.toNat
        ∧ utf8Len ("héllo".data.take k) ≤ 4
        ∧ (∀ j, utf8Len ("héllo".data.take j) ≤ 4 → j ≤ k)) := by
  refine ⟨⟨⟨by decide, ?_⟩, by decide⟩, ?_⟩
  · exact (truncateBytes_spec "héllo".data 16).1 (by decide)
  · exact (truncateBytes_spec "héllo".data 4).2 (by decide)

end LogDot
